import Mathlib

/-
Shallow embedding of `redcaps/downloaders/image_downloader.py`
(class `ImageDownloader`, method `download`).

The method fetches a URL, validates the response (status code 200 and no
"removed.png" in the final resolved URL), decodes the body to an RGB image,
optionally resizes and center-crops it to a `crop_resize` square, creates the
parent directory of the destination and saves the image there.  Every
exception raised by any step is caught by the outermost `try/except` and
converted into the return value `False`.

External collaborators (the HTTP client `requests`, the codec `PIL`, the
filesystem) are modelled by an explicit environment `Env` of deterministic
functions; image pixel data is an abstract payload transported by the
geometric operations.  Python floats in the scale computation are idealised
as exact rationals; Python's builtin `round` (round half to even) is
modelled exactly on those rationals.
-/

namespace RedCaps

/-- Python 3 builtin `round` on an exact rational: round to the nearest
integer, ties to the even integer (banker's rounding), as `round(float)`
behaves in Python 3. -/
def pyRound (q : ℚ) : ℤ :=
  if q - ⌊q⌋ < 1/2 then ⌊q⌋
  else if (1 : ℚ)/2 < q - ⌊q⌋ then ⌊q⌋ + 1
  else if 2 ∣ ⌊q⌋ then ⌊q⌋ else ⌊q⌋ + 1

/-- Python's substring test `needle in hay` on character lists: some
contiguous run of `hay` equals `needle`. -/
def strContains (needle : List Char) : List Char → Bool
  | [] => needle.isEmpty
  | c :: t => needle.isPrefixOf (c :: t) || strContains needle t

/-- The dead-link check of line 48: `"removed.png" in response.url`. -/
def hasRemoved (u : String) : Bool :=
  strContains "removed.png".data u.data

/-- `os.path.dirname` (POSIX): everything up to the last slash, with
trailing slashes stripped unless the head consists of slashes only.
Python: `i = p.rfind('/') + 1; head = p[:i];
if head and head != '/'*len(head): head = head.rstrip('/')`. -/
def dirname (p : String) : String :=
  let head := (p.data.reverse.dropWhile (fun c => c ≠ '/')).reverse
  if head.any (fun c => c ≠ '/') then
    String.mk ((head.reverse.dropWhile (fun c => c = '/')).reverse)
  else String.mk head

/-- The result of `requests.get(url)`: status code, final resolved URL
(`response.url`, after redirects) and body bytes (`response.content`). -/
structure Response where
  status_code : ℕ
  url : String
  content : List ℕ

/-- A decoded PIL image: width and height in pixels plus an abstract
identifier for the pixel payload. -/
structure Image where
  width : ℕ
  height : ℕ
  pixels : ℕ
deriving DecidableEq

/-- Local filesystem state: files (path to byte content) and the set of
existing directories. -/
structure FS where
  files : List (String × List ℕ)
  dirs : List String
deriving DecidableEq

/-- Content of the file at path `p`, if one exists. -/
def FS.read (fs : FS) (p : String) : Option (List ℕ) :=
  (fs.files.find? (fun e => e.1 = p)).map (fun e => e.2)

/-- Create or overwrite the file at path `p` with content `b`. -/
def FS.write (fs : FS) (p : String) (b : List ℕ) : FS :=
  ⟨(p, b) :: fs.files.filter (fun e => e.1 ≠ p), fs.dirs⟩

/-- `os.makedirs(p, exist_ok=True)` on a nonempty path: record the
directory; creating an existing directory is a no-op. -/
def FS.addDir (fs : FS) (p : String) : FS :=
  if p ∈ fs.dirs then fs else ⟨fs.files, p :: fs.dirs⟩

/-- The external collaborators of `download`, as deterministic functions:
`fetch` is `requests.get` (`none` models a transport exception); `decode`
is `PIL.Image.open` on the body bytes (`none` models a decode exception);
`rgbPixels`, `resizePixels` and `cropPixels` are the pixel-payload parts of
`convert("RGB")`, `resize` and `crop`; `encode` is `Image.save`, producing
the bytes written at the destination path (`none` models an encode or write
exception); `mkdirFail` models an `os.makedirs` exception on a nonempty
path (e.g. permissions). -/
structure Env where
  fetch : String → Option Response
  decode : List ℕ → Option Image
  rgbPixels : ℕ → ℕ
  resizePixels : ℕ → ℕ → ℕ → ℕ
  cropPixels : ℕ → ℤ → ℤ → ℤ → ℤ → ℕ
  encode : Image → String → Option (List ℕ)
  mkdirFail : String → Bool

/-- `pil_image.convert("RGB")`: dimensions are preserved, the payload is
normalised. -/
def Image.convert (img : Image) (env : Env) : Image :=
  ⟨img.width, img.height, env.rgbPixels img.pixels⟩

/-- `pil_image.resize((w, h))`: the result has exactly the requested
dimensions. -/
def Image.resize (img : Image) (env : Env) (w h : ℕ) : Image :=
  ⟨w, h, env.resizePixels img.pixels w h⟩

/-- `pil_image.crop((l, t, r, b))`: PIL returns an image of exactly the box
size `(r - l, b - t)` (regions outside the source are padded). -/
def Image.crop (img : Image) (env : Env) (l t r b : ℤ) : Image :=
  ⟨(r - l).toNat, (b - t).toNat, env.cropPixels img.pixels l t r b⟩

/-- Line 59: `scale = self.crop_resize / float(min(image_width, image_height))`,
with the float arithmetic idealised as exact rational division. -/
def scaleOf (crop_resize : ℤ) (w h : ℕ) : ℚ :=
  (crop_resize : ℚ) / ((min w h : ℕ) : ℚ)

/-- Line 61: `new_width = int(round(image_width * scale))`. -/
def newWidth (crop_resize : ℤ) (w h : ℕ) : ℤ :=
  pyRound ((w : ℚ) * scaleOf crop_resize w h)

/-- Line 61: `new_height = int(round(image_height * scale))`. -/
def newHeight (crop_resize : ℤ) (w h : ℕ) : ℤ :=
  pyRound ((h : ℚ) * scaleOf crop_resize w h)

/-- Lines 64-74: the crop box `(new_left, new_top, new_right, new_bottom)`.
`int((new_width - self.crop_resize) / 2)` is float division followed by
`int` truncation toward zero, i.e. `Int.tdiv` on exact values. -/
def cropBox (crop_resize nW nH : ℤ) : ℤ × ℤ × ℤ × ℤ :=
  if nW ≥ nH then
    (Int.tdiv (nW - crop_resize) 2, 0,
     Int.tdiv (nW - crop_resize) 2 + crop_resize, crop_resize)
  else
    (0, Int.tdiv (nH - crop_resize) 2,
     crop_resize, Int.tdiv (nH - crop_resize) 2 + crop_resize)

/-- Lines 57-76: the resize-and-center-crop transform applied when
`self.crop_resize > 0`.  A zero dimension makes line 59 raise
`ZeroDivisionError` (caught by the outer handler), modelled as `none`. -/
def cropResizeTransform (env : Env) (crop_resize : ℤ) (img : Image) :
    Option Image :=
  if min img.width img.height = 0 then none
  else
    let nW := newWidth crop_resize img.width img.height
    let nH := newHeight crop_resize img.width img.height
    let box := cropBox crop_resize nW nH
    some (((img.resize env nW.toNat nH.toNat).crop env
      box.1 box.2.1 box.2.2.1 box.2.2.2))

/-- Lines 53-76: the image that reaches the save step, computed from the
body bytes: decode, normalise to RGB, then transform iff
`self.crop_resize > 0`.  `none` when decoding or the transform raises. -/
def processed (env : Env) (crop_resize : ℤ) (content : List ℕ) :
    Option Image :=
  match env.decode content with
  | none => none
  | some d =>
      if crop_resize > 0 then cropResizeTransform env crop_resize (d.convert env)
      else some (d.convert env)

/-- `ImageDownloader.download(url, save_to)` over filesystem state `fs`,
with the instance attribute `self.crop_resize` passed explicitly.  Returns
the boolean result together with the filesystem after the call; every
collaborator failure is caught and turned into `false`, as by the
`try/except` of lines 42-85. -/
def download (env : Env) (crop_resize : ℤ) (fs : FS) (url save_to : String) :
    Bool × FS :=
  match env.fetch url with
  | none => (false, fs)
  | some response =>
    if response.status_code ≠ 200 ∨ hasRemoved response.url = true then
      (false, fs)
    else
      match processed env crop_resize response.content with
      | none => (false, fs)
      | some pil_image =>
        if dirname save_to = "" ∨ env.mkdirFail (dirname save_to) = true then
          (false, fs)
        else
          match env.encode pil_image save_to with
          | none => (false, fs.addDir (dirname save_to))
          | some bytes =>
              (true, (fs.addDir (dirname save_to)).write save_to bytes)

/-- An empty filesystem, used for concrete runs. -/
def fs0 : FS := ⟨[], []⟩

/-- A concrete all-succeeding environment: status 200, final URL "u", a
decodable 2x2 source image, identity pixel transforms, encoding to the
byte list [9], and no makedirs failures. -/
def sampleEnv : Env where
  fetch := fun _ => some ⟨200, "u", [1]⟩
  decode := fun _ => some ⟨2, 2, 0⟩
  rgbPixels := fun p => p
  resizePixels := fun p _ _ => p
  cropPixels := fun p _ _ _ _ => p
  encode := fun _ _ => some [9]
  mkdirFail := fun _ => false

/-- Like `sampleEnv` but the server answers 200 with the Imgur dead-link
placeholder as the final resolved URL. -/
def sampleEnvRemoved : Env :=
  { sampleEnv with fetch := fun _ => some ⟨200, "http://i.imgur.com/removed.png", [1]⟩ }

/-- Like `sampleEnv` but the body bytes are not decodable as an image. -/
def sampleEnvNoDecode : Env :=
  { sampleEnv with decode := fun _ => none }

/-- Rounding an integer is the identity. -/
theorem pyRound_intCast (n : ℤ) : pyRound (n : ℚ) = n := by
  unfold pyRound
  rw [Int.floor_intCast]
  norm_num

/-- pyRound never rounds below an integer lower bound. -/
theorem le_pyRound (q : ℚ) (n : ℤ) (h : (n : ℚ) ≤ q) : n ≤ pyRound q := by
  unfold pyRound
  have h1 : n ≤ ⌊q⌋ := Int.le_floor.mpr h
  split
  · exact h1
  · split
    · omega
    · split <;> omega

/-- Truncating division of a nonnegative integer by 2 stays within [0, a]. -/
theorem tdiv_two_bounds (a : ℤ) (ha : 0 ≤ a) :
    0 ≤ Int.tdiv a 2 ∧ Int.tdiv a 2 ≤ a := by
  obtain ⟨n, rfl⟩ := Int.eq_ofNat_of_zero_le ha
  have h : ((n : ℤ)).tdiv 2 = ((n / 2 : ℕ) : ℤ) := rfl
  rw [h]
  constructor
  · exact_mod_cast Nat.zero_le _
  · exact_mod_cast Nat.div_le_self n 2

/-- On nonnegative integers, truncating division by 2 agrees with floor
division by 2 (Python's `int(x / 2)` versus mathematical floor). -/
theorem tdiv_two_fdiv (a : ℤ) (ha : 0 ≤ a) : Int.tdiv a 2 = Int.fdiv a 2 :=
  (Int.fdiv_eq_tdiv ha (by norm_num)).symm

/-- When the width is the shorter edge, the scaled width rounds to exactly
the target size. -/
theorem newWidth_eq_of_le (T : ℤ) (w h : ℕ) (hw : 1 ≤ w) (hwh : w ≤ h) :
    newWidth T w h = T := by
  unfold newWidth scaleOf
  rw [min_eq_left hwh]
  have hw0 : ((w : ℕ) : ℚ) ≠ 0 := by
    simp only [ne_eq, Nat.cast_eq_zero]
    omega
  rw [mul_comm, div_mul_cancel₀ _ hw0]
  exact pyRound_intCast _

/-- When the height is the shorter edge, the scaled height rounds to
exactly the target size. -/
theorem newHeight_eq_of_le (T : ℤ) (w h : ℕ) (hh : 1 ≤ h) (hhw : h ≤ w) :
    newHeight T w h = T := by
  unfold newHeight scaleOf
  rw [min_eq_right hhw]
  have hh0 : ((h : ℕ) : ℚ) ≠ 0 := by
    simp only [ne_eq, Nat.cast_eq_zero]
    omega
  rw [mul_comm, div_mul_cancel₀ _ hh0]
  exact pyRound_intCast _

/-- When the width is the shorter edge, the scaled height rounds to at
least the target size. -/
theorem le_newHeight_of_le (T : ℤ) (w h : ℕ) (hw : 1 ≤ w) (hwh : w ≤ h)
    (hT : 0 < T) : T ≤ newHeight T w h := by
  unfold newHeight scaleOf
  rw [min_eq_left hwh]
  apply le_pyRound
  have hw0 : (0 : ℚ) < ((w : ℕ) : ℚ) := by
    have : (0 : ℕ) < w := hw
    exact_mod_cast this
  have hcast : ((w : ℕ) : ℚ) ≤ ((h : ℕ) : ℚ) := by exact_mod_cast hwh
  have hT0 : (0 : ℚ) ≤ (T : ℚ) := by exact_mod_cast hT.le
  calc (T : ℚ) = (w : ℚ) * ((T : ℚ) / (w : ℚ)) := by
        rw [mul_comm, div_mul_cancel₀ _ hw0.ne']
    _ ≤ (h : ℚ) * ((T : ℚ) / (w : ℚ)) :=
        mul_le_mul_of_nonneg_right hcast (div_nonneg hT0 hw0.le)

/-- When the height is the shorter edge, the scaled width rounds to at
least the target size. -/
theorem le_newWidth_of_le (T : ℤ) (w h : ℕ) (hh : 1 ≤ h) (hhw : h ≤ w)
    (hT : 0 < T) : T ≤ newWidth T w h := by
  unfold newWidth scaleOf
  rw [min_eq_right hhw]
  apply le_pyRound
  have hh0 : (0 : ℚ) < ((h : ℕ) : ℚ) := by
    have : (0 : ℕ) < h := hh
    exact_mod_cast this
  have hcast : ((h : ℕ) : ℚ) ≤ ((w : ℕ) : ℚ) := by exact_mod_cast hhw
  have hT0 : (0 : ℚ) ≤ (T : ℚ) := by exact_mod_cast hT.le
  calc (T : ℚ) = (h : ℚ) * ((T : ℚ) / (h : ℚ)) := by
        rw [mul_comm, div_mul_cancel₀ _ hh0.ne']
    _ ≤ (w : ℚ) * ((T : ℚ) / (h : ℚ)) :=
        mul_le_mul_of_nonneg_right hcast (div_nonneg hT0 hh0.le)

/-- The rounded dimensions after scaling: the shorter one is exactly the
target size and the longer one is at least the target size. -/
theorem newSize_spec (T : ℤ) (w h : ℕ) (hw : 1 ≤ w) (hh : 1 ≤ h)
    (hT : 0 < T) :
    min (newWidth T w h) (newHeight T w h) = T ∧
    T ≤ max (newWidth T w h) (newHeight T w h) := by
  rcases le_total w h with hwh | hhw
  · have h1 := newWidth_eq_of_le T w h hw hwh
    have h2 := le_newHeight_of_le T w h hw hwh hT
    constructor
    · rw [h1]; exact min_eq_left h2
    · exact le_max_of_le_right h2
  · have h1 := newHeight_eq_of_le T w h hh hhw
    have h2 := le_newWidth_of_le T w h hh hhw hT
    constructor
    · rw [h1]; exact min_eq_right h2
    · exact le_max_of_le_left h2

/-- Reading back a freshly written file yields the written bytes. -/
theorem FS.read_write (fs : FS) (p : String) (b : List ℕ) :
    (fs.write p b).read p = some b := by
  unfold FS.read FS.write
  simp [List.find?]

/-- Creating a directory does not change any file content. -/
theorem FS.read_addDir (fs : FS) (d p : String) :
    (fs.addDir d).read p = fs.read p := by
  unfold FS.read FS.addDir
  split <;> rfl

/-- The crop box always spans exactly `crop_resize` in both axes. -/
theorem cropBox_size (T nW nH : ℤ) :
    (cropBox T nW nH).2.2.1 - (cropBox T nW nH).1 = T ∧
    (cropBox T nW nH).2.2.2 - (cropBox T nW nH).2.1 = T := by
  unfold cropBox
  split <;> constructor <;> ring

/-- Whenever the transform returns an image, that image is exactly
`crop_resize` by `crop_resize` pixels. -/
theorem cropResizeTransform_dims (env : Env) (T : ℤ) (img out : Image)
    (h : cropResizeTransform env T img = some out) :
    out.width = T.toNat ∧ out.height = T.toNat := by
  unfold cropResizeTransform at h
  split at h
  · cases h
  · rw [Option.some_inj] at h
    have hsz := cropBox_size T (newWidth T img.width img.height)
      (newHeight T img.width img.height)
    cases h
    simp only [Image.crop]
    rw [hsz.1, hsz.2]
    exact ⟨rfl, rfl⟩

/-- Inversion of a successful run: a true result pins down a fetched
response that passed validation, a processed image, a nonempty parent
directory with no makedirs failure, encoded bytes, and the final
filesystem. -/
theorem download_true_inv (env : Env) (T : ℤ) (fs : FS) (url save_to : String)
    (hok : (download env T fs url save_to).1 = true) :
    ∃ r img bytes,
      env.fetch url = some r ∧ r.status_code = 200 ∧ hasRemoved r.url = false ∧
      processed env T r.content = some img ∧
      dirname save_to ≠ "" ∧ env.mkdirFail (dirname save_to) = false ∧
      env.encode img save_to = some bytes ∧
      download env T fs url save_to =
        (true, (fs.addDir (dirname save_to)).write save_to bytes) := by
  cases hf : env.fetch url with
  | none =>
    simp only [download, hf] at hok
    exact Bool.noConfusion hok
  | some r =>
    by_cases hcond : r.status_code ≠ 200 ∨ hasRemoved r.url = true
    · simp only [download, hf, if_pos hcond] at hok
      exact Bool.noConfusion hok
    · cases hp : processed env T r.content with
      | none =>
        simp only [download, hf, if_neg hcond, hp] at hok
        exact Bool.noConfusion hok
      | some img =>
        by_cases hdir : dirname save_to = "" ∨
            env.mkdirFail (dirname save_to) = true
        · simp only [download, hf, if_neg hcond, hp, if_pos hdir] at hok
          exact Bool.noConfusion hok
        · cases he : env.encode img save_to with
          | none =>
            simp only [download, hf, if_neg hcond, hp, if_neg hdir, he] at hok
            exact Bool.noConfusion hok
          | some bytes =>
            have hdl : download env T fs url save_to =
                (true, (fs.addDir (dirname save_to)).write save_to bytes) := by
              simp only [download, hf, hp, he]
              rw [if_neg hcond, if_neg hdir]
            push_neg at hcond hdir
            exact ⟨r, img, bytes, rfl, hcond.1,
              Bool.eq_false_iff.mpr hcond.2, hp,
              hdir.1, Bool.eq_false_iff.mpr hdir.2, he, hdl⟩

/-- C2: a non-200 status code, or a final resolved URL containing
"removed.png" even with status 200, makes download return false with the
filesystem untouched; the result does not depend on the decoder or any
later step, so the rejection happens before any decode or write. -/
theorem C2_validation_rejects (env : Env) (T : ℤ) (fs : FS)
    (url save_to : String) (r : Response)
    (hfetch : env.fetch url = some r)
    (hbad : r.status_code ≠ 200 ∨ hasRemoved r.url = true) :
    download env T fs url save_to = (false, fs) := by
  simp only [download, hfetch, if_pos hbad]

/-- Witness for C2: status 200 with the Imgur removed.png placeholder as
the final resolved URL. -/
theorem C2_validation_rejects_witness :
    download sampleEnvRemoved 512 fs0 "u" "d/f.png" = (false, fs0) :=
  C2_validation_rejects sampleEnvRemoved 512 fs0 "u" "d/f.png"
    ⟨200, "http://i.imgur.com/removed.png", [1]⟩ rfl (Or.inr (by decide))

/-- C7: a failure at validation (bad status code, removed.png sentinel) or
at decode leaves the filesystem exactly as it was: no file is written and
no directory is created. -/
theorem C7_early_failure_keeps_fs (env : Env) (T : ℤ) (fs : FS)
    (url save_to : String) (r : Response)
    (hfetch : env.fetch url = some r)
    (hfail : r.status_code ≠ 200 ∨ hasRemoved r.url = true ∨
      env.decode r.content = none) :
    download env T fs url save_to = (false, fs) := by
  by_cases hcond : r.status_code ≠ 200 ∨ hasRemoved r.url = true
  · simp only [download, hfetch, if_pos hcond]
  · have hdec : env.decode r.content = none := by
      rcases hfail with hst | hrm | hde
      · exact absurd (Or.inl hst) hcond
      · exact absurd (Or.inr hrm) hcond
      · exact hde
    have hp : processed env T r.content = none := by
      simp only [processed, hdec]
    simp only [download, hfetch, if_neg hcond, hp]

/-- Witness for C7: status 200, clean URL, but undecodable body bytes. -/
theorem C7_early_failure_keeps_fs_witness :
    download sampleEnvNoDecode 512 fs0 "u" "d/f.png" = (false, fs0) :=
  C7_early_failure_keeps_fs sampleEnvNoDecode 512 fs0 "u" "d/f.png"
    ⟨200, "u", [1]⟩ rfl (Or.inr (Or.inr rfl))

/-- C10: a destination path whose directory part is empty (a bare
filename) always yields false, because `os.makedirs("")` raises, even when
fetch, validation and decode all succeed. -/
theorem C10_bare_filename_fails (env : Env) (T : ℤ) (fs : FS)
    (url save_to : String) (hdir : dirname save_to = "") :
    (download env T fs url save_to).1 = false := by
  cases hf : env.fetch url with
  | none => simp [download, hf]
  | some r =>
    by_cases hcond : r.status_code ≠ 200 ∨ hasRemoved r.url = true
    · simp [download, hf, if_pos hcond]
    · cases hp : processed env T r.content with
      | none => simp [download, hf, if_neg hcond, hp]
      | some img =>
        have hfailmk : dirname save_to = "" ∨
            env.mkdirFail (dirname save_to) = true := Or.inl hdir
        simp [download, hf, if_neg hcond, hp, if_pos hfailmk]

/-- Witness for C10: the all-succeeding environment with the bare filename
"f.png" as destination. -/
theorem C10_bare_filename_fails_witness :
    (download sampleEnv 512 fs0 "u" "f.png").1 = false :=
  C10_bare_filename_fails sampleEnv 512 fs0 "u" "f.png" (by decide)

/-- C1: on a successful download (true result) with positive target size
and a decodable source of width and height at least 1, the image handed to
the save step measures exactly targetSize by targetSize, and the file
written at the destination is its encoding. -/
theorem C1_output_dimensions (env : Env) (T : ℤ) (fs : FS)
    (url save_to : String) (r : Response) (d img : Image)
    (hfetch : env.fetch url = some r)
    (hdecode : env.decode r.content = some d)
    (hw : 1 ≤ d.width) (hh : 1 ≤ d.height) (hT : 0 < T)
    (himg : processed env T r.content = some img)
    (hok : (download env T fs url save_to).1 = true) :
    img.width = T.toNat ∧ img.height = T.toNat ∧
    (download env T fs url save_to).2.read save_to =
      env.encode img save_to := by
  obtain ⟨r2, img2, bytes, hf2, hst, hrm, hp2, hdir, hmk, he, heq⟩ :=
    download_true_inv env T fs url save_to hok
  rw [hfetch] at hf2
  injection hf2 with hr
  subst hr
  rw [himg] at hp2
  injection hp2 with hi
  subst hi
  have hdims : img.width = T.toNat ∧ img.height = T.toNat := by
    simp only [processed, hdecode, if_pos hT] at himg
    exact cropResizeTransform_dims env T _ img himg
  refine ⟨hdims.1, hdims.2, ?_⟩
  rw [he, heq]
  simp [FS.read_write]

/-- Witness for C1: a concrete 2x2 source image with target size 2. -/
theorem C1_output_dimensions_witness :
    (⟨2, 2, 0⟩ : Image).width = (2 : ℤ).toNat ∧
    (⟨2, 2, 0⟩ : Image).height = (2 : ℤ).toNat ∧
    (download sampleEnv 2 fs0 "u" "d/f.png").2.read "d/f.png" =
      sampleEnv.encode ⟨2, 2, 0⟩ "d/f.png" := by
  have hproc : processed sampleEnv 2 [1] = some ⟨2, 2, 0⟩ := by
    norm_num [processed, sampleEnv, cropResizeTransform, Image.convert,
      Image.resize, Image.crop, newWidth, newHeight, scaleOf, pyRound,
      cropBox]
    decide
  have hfe : sampleEnv.fetch "u" = some ⟨200, "u", [1]⟩ := rfl
  have hok : (download sampleEnv 2 fs0 "u" "d/f.png").1 = true := by
    simp only [download, hfe, hproc]
    rw [if_neg (by decide), if_neg (by decide)]
    rfl
  exact C1_output_dimensions sampleEnv 2 fs0 "u" "d/f.png" ⟨200, "u", [1]⟩
    ⟨2, 2, 0⟩ ⟨2, 2, 0⟩ rfl rfl (by decide) (by decide) (by decide) hproc hok

/-- C5: with a non-positive target size no resize or crop is applied: the
buffer saved is the RGB-converted decoded buffer unmodified, its
dimensions are the decoded source dimensions, and the file written is its
encoding. -/
theorem C5_no_transform (env : Env) (T : ℤ) (fs : FS) (url save_to : String)
    (r : Response) (d : Image)
    (hfetch : env.fetch url = some r)
    (hdecode : env.decode r.content = some d)
    (hT : T ≤ 0)
    (hok : (download env T fs url save_to).1 = true) :
    (d.convert env).width = d.width ∧ (d.convert env).height = d.height ∧
    ∃ bytes, env.encode (d.convert env) save_to = some bytes ∧
      (download env T fs url save_to).2.read save_to = some bytes := by
  obtain ⟨r2, img2, bytes, hf2, hst, hrm, hp2, hdir, hmk, he, heq⟩ :=
    download_true_inv env T fs url save_to hok
  rw [hfetch] at hf2
  injection hf2 with hr
  subst hr
  have himg2 : img2 = d.convert env := by
    simp only [processed, hdecode, if_neg (not_lt.mpr hT)] at hp2
    exact (Option.some_inj.mp hp2).symm
  subst himg2
  refine ⟨rfl, rfl, bytes, he, ?_⟩
  rw [heq]
  simp [FS.read_write]

/-- Witness for C5: the all-succeeding environment with crop_resize -1. -/
theorem C5_no_transform_witness :
    ((⟨2, 2, 0⟩ : Image).convert sampleEnv).width =
      (⟨2, 2, 0⟩ : Image).width ∧
    ((⟨2, 2, 0⟩ : Image).convert sampleEnv).height =
      (⟨2, 2, 0⟩ : Image).height ∧
    ∃ bytes,
      sampleEnv.encode ((⟨2, 2, 0⟩ : Image).convert sampleEnv) "d/f.png" =
        some bytes ∧
      (download sampleEnv (-1) fs0 "u" "d/f.png").2.read "d/f.png" =
        some bytes :=
  C5_no_transform sampleEnv (-1) fs0 "u" "d/f.png" ⟨200, "u", [1]⟩ ⟨2, 2, 0⟩
    rfl rfl (by decide) (by decide)

/-- C6: download is total with a plain boolean result: every failure mode
collapses to false, and the result is true exactly when fetch, validation,
decode, the optional transform, directory creation and encode all
succeeded. -/
theorem C6_failure_collapse (env : Env) (T : ℤ) (fs : FS)
    (url save_to : String) :
    (download env T fs url save_to).1 = true ↔
      ∃ r img bytes,
        env.fetch url = some r ∧ r.status_code = 200 ∧
        hasRemoved r.url = false ∧
        processed env T r.content = some img ∧
        dirname save_to ≠ "" ∧ env.mkdirFail (dirname save_to) = false ∧
        env.encode img save_to = some bytes := by
  constructor
  · intro hok
    obtain ⟨r, img, bytes, hf, hst, hrm, hp, hdir, hmk, he, _⟩ :=
      download_true_inv env T fs url save_to hok
    exact ⟨r, img, bytes, hf, hst, hrm, hp, hdir, hmk, he⟩
  · rintro ⟨r, img, bytes, hf, hst, hrm, hp, hdir, hmk, he⟩
    have hcond : ¬(r.status_code ≠ 200 ∨ hasRemoved r.url = true) := by
      simp [hst, hrm]
    have hdircond : ¬(dirname save_to = "" ∨
        env.mkdirFail (dirname save_to) = true) := by
      simp [hdir, hmk]
    simp [download, hf, if_neg hcond, hp, if_neg hdircond, he]

/-- C8: with stable collaborator behaviour, running download twice with
the same url and destination returns the same boolean both times and
leaves the same file content at the destination both times. -/
theorem C8_idempotent (env : Env) (T : ℤ) (fs : FS) (url save_to : String) :
    (download env T fs url save_to).1 =
      (download env T (download env T fs url save_to).2 url save_to).1 ∧
    (download env T fs url save_to).2.read save_to =
      (download env T (download env T fs url save_to).2 url
        save_to).2.read save_to := by
  cases hf : env.fetch url with
  | none => simp [download, hf]
  | some r =>
    by_cases hcond : r.status_code ≠ 200 ∨ hasRemoved r.url = true
    · simp [download, hf, if_pos hcond]
    · cases hp : processed env T r.content with
      | none => simp [download, hf, if_neg hcond, hp]
      | some img =>
        by_cases hdir : dirname save_to = "" ∨
            env.mkdirFail (dirname save_to) = true
        · simp [download, hf, if_neg hcond, hp, if_pos hdir]
        · cases he : env.encode img save_to with
          | none =>
            simp [download, hf, if_neg hcond, hp, if_neg hdir, he,
              FS.read_addDir]
          | some bytes =>
            simp [download, hf, if_neg hcond, hp, if_neg hdir, he,
              FS.read_write, FS.read_addDir]

/-- C3: the transform computes scale = targetSize / min(w, h) by exact
division, the new dimensions by rounding w * scale and h * scale to the
nearest integer, and after the resize the shorter edge equals exactly
targetSize while the longer edge is at least targetSize. -/
theorem C3_scale_geometry (T : ℤ) (w h : ℕ) (hw : 1 ≤ w) (hh : 1 ≤ h)
    (hT : 0 < T) :
    scaleOf T w h = (T : ℚ) / ((min w h : ℕ) : ℚ) ∧
    newWidth T w h = pyRound ((w : ℚ) * scaleOf T w h) ∧
    newHeight T w h = pyRound ((h : ℚ) * scaleOf T w h) ∧
    min (newWidth T w h) (newHeight T w h) = T ∧
    T ≤ max (newWidth T w h) (newHeight T w h) :=
  ⟨rfl, rfl, rfl, (newSize_spec T w h hw hh hT).1,
    (newSize_spec T w h hw hh hT).2⟩

/-- Witness for C3 at the spec's concrete scenario: an 800x600 source with
target size 512. -/
theorem C3_scale_geometry_witness :
    scaleOf 512 800 600 = (512 : ℚ) / ((min 800 600 : ℕ) : ℚ) ∧
    newWidth 512 800 600 = pyRound ((800 : ℚ) * scaleOf 512 800 600) ∧
    newHeight 512 800 600 = pyRound ((600 : ℚ) * scaleOf 512 800 600) ∧
    min (newWidth 512 800 600) (newHeight 512 800 600) = 512 ∧
    512 ≤ max (newWidth 512 800 600) (newHeight 512 800 600) :=
  C3_scale_geometry 512 800 600 (by decide) (by decide) (by decide)

/-- C4: on the pipeline's resized dimensions, the landscape branch (taken
also on the square tie, where the horizontal offset is zero) centers
horizontally with left = floor((newW - T) / 2) and box
(left, 0, left + T, T); the portrait branch centers vertically with
top = floor((newH - T) / 2) and box (0, top, T, top + T). -/
theorem C4_crop_box (T : ℤ) (w h : ℕ) (hw : 1 ≤ w) (hh : 1 ≤ h)
    (hT : 0 < T) :
    (newHeight T w h ≤ newWidth T w h →
      cropBox T (newWidth T w h) (newHeight T w h) =
        (Int.fdiv (newWidth T w h - T) 2, 0,
         Int.fdiv (newWidth T w h - T) 2 + T, T)) ∧
    (newWidth T w h < newHeight T w h →
      cropBox T (newWidth T w h) (newHeight T w h) =
        (0, Int.fdiv (newHeight T w h - T) 2,
         T, Int.fdiv (newHeight T w h - T) 2 + T)) ∧
    (newWidth T w h = newHeight T w h →
      cropBox T (newWidth T w h) (newHeight T w h) = (0, 0, T, T)) := by
  have hspec := newSize_spec T w h hw hh hT
  refine ⟨?_, ?_, ?_⟩
  · intro hge
    have hnH : newHeight T w h = T := by
      have h1 := hspec.1
      rw [min_eq_right hge] at h1
      exact h1
    have hfd : Int.tdiv (newWidth T w h - T) 2 =
        Int.fdiv (newWidth T w h - T) 2 := tdiv_two_fdiv _ (by omega)
    unfold cropBox
    rw [if_pos hge, hfd]
  · intro hlt
    have hnW : newWidth T w h = T := by
      have h1 := hspec.1
      rw [min_eq_left (le_of_lt hlt)] at h1
      exact h1
    have hfd : Int.tdiv (newHeight T w h - T) 2 =
        Int.fdiv (newHeight T w h - T) 2 := tdiv_two_fdiv _ (by omega)
    unfold cropBox
    rw [if_neg (not_le.mpr hlt), hfd]
  · intro heq
    have hnH : newHeight T w h = T := by
      have h1 := hspec.1
      rw [heq, min_self] at h1
      exact h1
    have hnW : newWidth T w h = T := heq.trans hnH
    unfold cropBox
    rw [if_pos (ge_of_eq heq), hnW, sub_self]
    norm_num [Int.zero_tdiv]

/-- Witness for C4 at the spec's concrete 800x600 scenario with target
size 512. -/
theorem C4_crop_box_witness :
    (newHeight 512 800 600 ≤ newWidth 512 800 600 →
      cropBox 512 (newWidth 512 800 600) (newHeight 512 800 600) =
        (Int.fdiv (newWidth 512 800 600 - 512) 2, 0,
         Int.fdiv (newWidth 512 800 600 - 512) 2 + 512, 512)) ∧
    (newWidth 512 800 600 < newHeight 512 800 600 →
      cropBox 512 (newWidth 512 800 600) (newHeight 512 800 600) =
        (0, Int.fdiv (newHeight 512 800 600 - 512) 2,
         512, Int.fdiv (newHeight 512 800 600 - 512) 2 + 512)) ∧
    (newWidth 512 800 600 = newHeight 512 800 600 →
      cropBox 512 (newWidth 512 800 600) (newHeight 512 800 600) =
        (0, 0, 512, 512)) :=
  C4_crop_box 512 800 600 (by decide) (by decide) (by decide)

/-- C9: the crop box computed from the pipeline's resized dimensions lies
entirely inside the resized image, so the center-crop never extends past
the buffer's bounds. -/
theorem C9_crop_box_in_bounds (T : ℤ) (w h : ℕ) (hw : 1 ≤ w) (hh : 1 ≤ h)
    (hT : 0 < T) :
    0 ≤ (cropBox T (newWidth T w h) (newHeight T w h)).1 ∧
    0 ≤ (cropBox T (newWidth T w h) (newHeight T w h)).2.1 ∧
    (cropBox T (newWidth T w h) (newHeight T w h)).2.2.1 ≤ newWidth T w h ∧
    (cropBox T (newWidth T w h) (newHeight T w h)).2.2.2 ≤
      newHeight T w h := by
  have hspec := newSize_spec T w h hw hh hT
  unfold cropBox
  by_cases hge : newWidth T w h ≥ newHeight T w h
  · rw [if_pos hge]
    have hnH : newHeight T w h = T := by
      have h1 := hspec.1
      rw [min_eq_right hge] at h1
      exact h1
    obtain ⟨hb1, hb2⟩ := tdiv_two_bounds (newWidth T w h - T) (by omega)
    refine ⟨hb1, le_refl 0, ?_, ?_⟩
    · show Int.tdiv (newWidth T w h - T) 2 + T ≤ newWidth T w h
      omega
    · show T ≤ newHeight T w h
      omega
  · rw [if_neg hge]
    have hlt : newWidth T w h < newHeight T w h := not_le.mp hge
    have hnW : newWidth T w h = T := by
      have h1 := hspec.1
      rw [min_eq_left (le_of_lt hlt)] at h1
      exact h1
    obtain ⟨hb1, hb2⟩ := tdiv_two_bounds (newHeight T w h - T) (by omega)
    refine ⟨le_refl 0, hb1, ?_, ?_⟩
    · show T ≤ newWidth T w h
      omega
    · show Int.tdiv (newHeight T w h - T) 2 + T ≤ newHeight T w h
      omega

/-- Witness for C9 at the spec's concrete 800x600 scenario with target
size 512. -/
theorem C9_crop_box_in_bounds_witness :
    0 ≤ (cropBox 512 (newWidth 512 800 600) (newHeight 512 800 600)).1 ∧
    0 ≤ (cropBox 512 (newWidth 512 800 600) (newHeight 512 800 600)).2.1 ∧
    (cropBox 512 (newWidth 512 800 600) (newHeight 512 800 600)).2.2.1 ≤
      newWidth 512 800 600 ∧
    (cropBox 512 (newWidth 512 800 600) (newHeight 512 800 600)).2.2.2 ≤
      newHeight 512 800 600 :=
  C9_crop_box_in_bounds 512 800 600 (by decide) (by decide) (by decide)

end RedCaps
